import Mathlib

/-!
Verification of the USYC-Agent x402 autonomous-payment core.

Shallow embedding of the repository's Python sources:
  * `src/agents/x402_handler.py`  — payment requirement parsing, payment proof
    codec, guardrailed payment execution, fetch-with-payment retry loop;
  * `src/agents/gateway_client.py` — settlement polling (`wait_for_transfer_completion`);
  * `src/agents/vault_agent.py`   — cooldown-guarded vault actions;
  * `src/agents/event_bus.py`     — publish/subscribe bus with bounded history.

Python floats are modelled as exact rationals (`ℚ`): every comparison the code
performs on amounts is exact, and Python guarantees `float(str(x)) == x`, so the
`str`/`float` pair is modelled by an exact canonical rendering of the rational
value.  `datetime` instants are modelled as naturals (microseconds since epoch);
`isoformat`/`fromisoformat` round-trip exactly and are modelled by the canonical
decimal rendering of the instant.  Fallible Python code (exceptions) is modelled
with `Option`/`Except`.  Network effects are modelled by explicit environments
and by traces of the externally visible actions a call performs.
-/

set_option maxRecDepth 8192

namespace USYC

/-! ### Decimal string codec

Model of Python's `str`/`int`/`float` conversions used by the proof codec:
an exact, canonical, round-tripping rendering of numbers as strings. -/

/-- Little-endian decimal digits of a positive natural (empty for 0). -/
def natDigitsLE (n : Nat) : List Nat :=
  if n = 0 then [] else n % 10 :: natDigitsLE (n / 10)
  decreasing_by exact Nat.div_lt_self (Nat.pos_of_ne_zero (by assumption)) (by omega)

/-- Big-endian decimal digits, `[0]` for 0 (matching `str(0) = "0"`). -/
def natDigitsBE (n : Nat) : List Nat :=
  if n = 0 then [0] else (natDigitsLE n).reverse

/-- Value of a big-endian digit list. -/
def ofDigitsBE (l : List Nat) : Nat :=
  l.foldl (fun a d => a * 10 + d) 0

/-- Digit to ASCII character. -/
def digitChar (d : Nat) : Char := Char.ofNat (48 + d)

/-- ASCII character to digit value. -/
def charDigit (c : Char) : Nat := c.toNat - 48

/-- Is the character an ASCII decimal digit? -/
def isDigitChar (c : Char) : Bool := 48 ≤ c.toNat && c.toNat ≤ 57

/-- Model of Python `str` on a natural number. -/
def natStr (n : Nat) : String := ⟨(natDigitsBE n).map digitChar⟩

/-- Model of Python `int(s)` restricted to unsigned decimal strings:
fails unless the string is a nonempty sequence of digits. -/
def natParse (s : String) : Option Nat :=
  if s.data ≠ [] ∧ s.data.all isDigitChar then
    some (ofDigitsBE (s.data.map charDigit))
  else none

theorem ofDigitsLE_natDigitsLE (n : Nat) :
    (natDigitsLE n).foldr (fun d a => a * 10 + d) 0 = n := by
  induction n using natDigitsLE.induct with
  | case1 => simp [natDigitsLE]
  | case2 n hn ih =>
    rw [natDigitsLE]
    simp only [if_neg hn, List.foldr_cons, ih]
    omega

theorem ofDigitsBE_natDigitsBE (n : Nat) : ofDigitsBE (natDigitsBE n) = n := by
  by_cases h : n = 0
  · simp [h, natDigitsBE, ofDigitsBE]
  · unfold natDigitsBE ofDigitsBE
    rw [if_neg h, List.foldl_reverse]
    exact ofDigitsLE_natDigitsLE n

theorem natDigitsLE_lt_ten (n : Nat) : ∀ d ∈ natDigitsLE n, d < 10 := by
  induction n using natDigitsLE.induct with
  | case1 => simp [natDigitsLE]
  | case2 n hn ih =>
    rw [natDigitsLE, if_neg hn]
    intro d hd
    rcases List.mem_cons.mp hd with h | h
    · omega
    · exact ih d h

theorem natDigitsBE_lt_ten (n : Nat) : ∀ d ∈ natDigitsBE n, d < 10 := by
  by_cases h : n = 0
  · simp [h, natDigitsBE]
  · unfold natDigitsBE
    rw [if_neg h]
    intro d hd
    exact natDigitsLE_lt_ten n d (List.mem_reverse.mp hd)

theorem natDigitsBE_ne_nil (n : Nat) : natDigitsBE n ≠ [] := by
  by_cases h : n = 0
  · simp [h, natDigitsBE]
  · unfold natDigitsBE
    rw [if_neg h]
    intro hc
    have : natDigitsLE n = [] := by
      simpa using congrArg List.reverse hc
    rw [natDigitsLE, if_neg h] at this
    exact List.cons_ne_nil _ _ this

theorem toNat_digitChar (d : Nat) (hd : d < 10) : (digitChar d).toNat = 48 + d := by
  interval_cases d <;> decide

theorem isDigitChar_digitChar (d : Nat) (hd : d < 10) : isDigitChar (digitChar d) = true := by
  interval_cases d <;> decide

theorem charDigit_digitChar (d : Nat) (hd : d < 10) : charDigit (digitChar d) = d := by
  interval_cases d <;> decide

/-- `int` inverts `str` on naturals. -/
theorem natParse_natStr (n : Nat) : natParse (natStr n) = some n := by
  unfold natParse natStr
  rw [if_pos]
  · congr 1
    have h1 : (natDigitsBE n).map (charDigit ∘ digitChar) = (natDigitsBE n).map id :=
      List.map_congr_left (fun d hd => charDigit_digitChar d (natDigitsBE_lt_ten n d hd))
    rw [List.map_map, h1, List.map_id, ofDigitsBE_natDigitsBE]
  · constructor
    · intro hc
      exact natDigitsBE_ne_nil n (List.map_eq_nil_iff.mp hc)
    · simp only [List.all_eq_true]
      intro c hc
      rcases List.mem_map.mp hc with ⟨d, hd, rfl⟩
      exact isDigitChar_digitChar d (natDigitsBE_lt_ten n d hd)

/-- Model of Python `str` on an integer. -/
def intStr (i : Int) : String :=
  if i < 0 then "-" ++ natStr i.natAbs else natStr i.natAbs

/-- Model of Python `int(s)` on signed decimal strings. -/
def intParse (s : String) : Option Int :=
  if s.data.head? = some '-' then (natParse ⟨s.data.tail⟩).map (fun n => -(Int.ofNat n))
  else (natParse s).map Int.ofNat

theorem natStr_head_digit (n : Nat) :
    ∃ d cs, d < 10 ∧ (natStr n).data = digitChar d :: cs := by
  unfold natStr
  rcases hl : natDigitsBE n with _ | ⟨d, rest⟩
  · exact absurd hl (natDigitsBE_ne_nil n)
  · refine ⟨d, rest.map digitChar, ?_, by simp⟩
    have := natDigitsBE_lt_ten n d
    rw [hl] at this
    exact this (by simp)

theorem data_minus_append (s : String) : ("-" ++ s).data = '-' :: s.data := by
  rw [String.data_append]
  rfl

theorem intParse_intStr (i : Int) : intParse (intStr i) = some i := by
  unfold intParse intStr
  by_cases h : i < 0
  · rw [if_pos h, if_pos]
    · rw [data_minus_append, List.tail_cons]
      rw [show (⟨(natStr i.natAbs).data⟩ : String) = natStr i.natAbs from rfl]
      rw [natParse_natStr]
      simp only [Option.map_some', Int.ofNat_eq_natCast]
      congr 1
      omega
    · rw [data_minus_append]
      rfl
  · rw [if_neg h, if_neg]
    · rw [natParse_natStr]
      simp only [Option.map_some', Int.ofNat_eq_natCast]
      congr 1
      omega
    · rcases natStr_head_digit i.natAbs with ⟨d, cs, hd, hdata⟩
      rw [hdata]
      simp only [List.head?_cons, Option.some.injEq]
      intro hc
      have h1 := toNat_digitChar d hd
      rw [hc] at h1
      have h2 : ('-' : Char).toNat = 45 := by decide
      omega

/-- Split a character list at the first slash. -/
def splitAtSlash (cs : List Char) : Option (List Char × List Char) :=
  match cs with
  | [] => none
  | c :: rest =>
    if c = '/' then some ([], rest)
    else (splitAtSlash rest).map (fun p => (c :: p.1, p.2))

theorem splitAtSlash_append (l r : List Char) (hl : '/' ∉ l) :
    splitAtSlash (l ++ '/' :: r) = some (l, r) := by
  induction l with
  | nil => simp [splitAtSlash]
  | cons c cs ih =>
    have hc : c ≠ '/' := fun h => hl (by simp [h])
    have hcs : '/' ∉ cs := fun h => hl (by simp [h])
    rw [List.cons_append]
    rw [show splitAtSlash (c :: (cs ++ '/' :: r))
        = if c = '/' then some ([], cs ++ '/' :: r)
          else (splitAtSlash (cs ++ '/' :: r)).map (fun p => (c :: p.1, p.2)) from rfl]
    rw [if_neg hc, ih hcs]
    rfl

/-- Model of Python `str` on a float amount: Python guarantees
`float(str(x)) == x`, i.e. the rendering is an exact round-tripping encoding of
the numeric value; we use the canonical exact rendering of the rational. -/
def floatStr (q : ℚ) : String :=
  intStr q.num ++ "/" ++ natStr q.den

/-- Rational from integer (Python `float` applied to an `int` value). -/
def ratOfInt (m : Int) : ℚ := (m : ℚ)

/-- Model of Python `float(s)`: accepts the canonical rendering produced by
`floatStr` as well as plain (signed) integer decimal strings; fails (Python:
`ValueError`) otherwise. -/
def floatParse (s : String) : Option ℚ :=
  match splitAtSlash s.data with
  | some p =>
    (intParse ⟨p.1⟩).bind (fun m =>
      (natParse ⟨p.2⟩).bind (fun d =>
        if d = 0 then none else some (ratOfInt m / (d : ℚ))))
  | none => (intParse s).map ratOfInt

theorem no_slash_natStr (n : Nat) : '/' ∉ (natStr n).data := by
  unfold natStr
  intro hc
  rcases List.mem_map.mp hc with ⟨d, hd, hdc⟩
  have hd10 := natDigitsBE_lt_ten n d hd
  have h1 := toNat_digitChar d hd10
  rw [hdc] at h1
  have h2 : ('/' : Char).toNat = 47 := by decide
  omega

theorem no_slash_intStr (i : Int) : '/' ∉ (intStr i).data := by
  unfold intStr
  by_cases h : i < 0
  · rw [if_pos h, data_minus_append]
    intro hc
    rcases List.mem_cons.mp hc with h1 | h1
    · simp at h1
    · exact no_slash_natStr _ h1
  · rw [if_neg h]
    exact no_slash_natStr _

/-- `float` inverts `str` on amounts. -/
theorem floatParse_floatStr (q : ℚ) : floatParse (floatStr q) = some q := by
  unfold floatParse floatStr
  have hdata : (intStr q.num ++ "/" ++ natStr q.den).data
      = (intStr q.num).data ++ '/' :: (natStr q.den).data := by
    rw [String.data_append, String.data_append]
    simp
  rw [hdata, splitAtSlash_append _ _ (no_slash_intStr q.num)]
  show (intParse ⟨(intStr q.num).data⟩).bind _ = some q
  rw [show (⟨(intStr q.num).data⟩ : String) = intStr q.num from rfl]
  rw [intParse_intStr, Option.some_bind]
  rw [show (⟨(natStr q.den).data⟩ : String) = natStr q.den from rfl]
  rw [natParse_natStr, Option.some_bind]
  rw [if_neg q.den_nz]
  unfold ratOfInt
  simp [Rat.num_div_den]

/-! ### Base64 transport codec

Model of Python's `base64.b64encode` / `base64.b64decode` (the default
`validate=False` mode: characters outside the alphabet and padding are
discarded before decoding, and a filtered length that is not a multiple of
four is a decoding error). -/

/-- The standard base64 alphabet. -/
def b64Alphabet : List Char :=
  "ABCDEFGHIJKLMNOPQRSTUVWXYZabcdefghijklmnopqrstuvwxyz0123456789+/".data

/-- Sextet value to base64 character. -/
def b64Char (n : Nat) : Char := b64Alphabet.getD n 'A'

/-- Is the character in the base64 alphabet? -/
def isB64Char (c : Char) : Bool := b64Alphabet.contains c

/-- Base64 character to sextet value. -/
def b64Index (c : Char) : Nat := b64Alphabet.indexOf c

/-- Model of `base64.b64encode` on a byte list. -/
def b64encodeBytes : List Nat → List Char
  | [] => []
  | [b1] => [b64Char (b1 / 4), b64Char (b1 % 4 * 16), '=', '=']
  | [b1, b2] => [b64Char (b1 / 4), b64Char (b1 % 4 * 16 + b2 / 16), b64Char (b2 % 16 * 4), '=']
  | b1 :: b2 :: b3 :: rest =>
    b64Char (b1 / 4) :: b64Char (b1 % 4 * 16 + b2 / 16) ::
      b64Char (b2 % 16 * 4 + b3 / 64) :: b64Char (b3 % 64) :: b64encodeBytes rest

/-- Decode groups of four base64 characters (padding allowed only at the end). -/
def b64decodeQuads : List Char → Option (List Nat)
  | [] => some []
  | c1 :: c2 :: c3 :: c4 :: rest =>
    if isB64Char c1 ∧ isB64Char c2 then
      if c3 = '=' then
        if c4 = '=' ∧ rest = [] then
          some [b64Index c1 * 4 + b64Index c2 / 16]
        else none
      else if isB64Char c3 then
        if c4 = '=' then
          if rest = [] then
            some [b64Index c1 * 4 + b64Index c2 / 16,
                  b64Index c2 % 16 * 16 + b64Index c3 / 4]
          else none
        else if isB64Char c4 then
          (b64decodeQuads rest).map
            (fun bs => (b64Index c1 * 4 + b64Index c2 / 16) ::
              (b64Index c2 % 16 * 16 + b64Index c3 / 4) ::
              (b64Index c3 % 4 * 64 + b64Index c4) :: bs)
        else none
      else none
    else none
  | _ => none

/-- Model of `base64.b64decode` on a character list: characters outside the
alphabet and padding are discarded first, then quads are decoded. -/
def b64decodeChars (cs : List Char) : Option (List Nat) :=
  b64decodeQuads (cs.filter (fun c => isB64Char c || c = '='))

theorem isB64Char_b64Char (n : Nat) (hn : n < 64) : isB64Char (b64Char n) = true := by
  interval_cases n <;> decide

theorem isB64Char_b64Char_all (n : Nat) : isB64Char (b64Char n) = true := by
  by_cases h : n < 64
  · exact isB64Char_b64Char n h
  · have hd : b64Char n = 'A' := by
      unfold b64Char
      rw [List.getD_eq_default]
      have : b64Alphabet.length = 64 := by decide
      omega
    rw [hd]
    decide

theorem b64Index_b64Char (n : Nat) (hn : n < 64) : b64Index (b64Char n) = n := by
  interval_cases n <;> decide

theorem b64Char_ne_eq (n : Nat) (hn : n < 64) : b64Char n ≠ '=' := by
  interval_cases n <;> decide

theorem b64filter_encode (bs : List Nat) :
    (b64encodeBytes bs).filter (fun c => isB64Char c || c = '=') = b64encodeBytes bs := by
  rw [List.filter_eq_self]
  induction bs using b64encodeBytes.induct with
  | case1 => simp [b64encodeBytes]
  | case2 b1 =>
    intro a ha
    rw [b64encodeBytes] at ha
    simp only [List.mem_cons, List.not_mem_nil, or_false] at ha
    rcases ha with rfl | rfl | rfl | rfl
    · simp [isB64Char_b64Char_all]
    · simp [isB64Char_b64Char_all]
    · decide
    · decide
  | case3 b1 b2 =>
    intro a ha
    rw [b64encodeBytes] at ha
    simp only [List.mem_cons, List.not_mem_nil, or_false] at ha
    rcases ha with rfl | rfl | rfl | rfl
    · simp [isB64Char_b64Char_all]
    · simp [isB64Char_b64Char_all]
    · simp [isB64Char_b64Char_all]
    · decide
  | case4 b1 b2 b3 rest ih =>
    intro a ha
    rw [b64encodeBytes] at ha
    simp only [List.mem_cons] at ha
    rcases ha with rfl | rfl | rfl | rfl | hm
    · simp [isB64Char_b64Char_all]
    · simp [isB64Char_b64Char_all]
    · simp [isB64Char_b64Char_all]
    · simp [isB64Char_b64Char_all]
    · exact ih a hm

theorem b64decodeQuads_encode (bs : List Nat) (hb : ∀ b ∈ bs, b < 256) :
    b64decodeQuads (b64encodeBytes bs) = some bs := by
  induction bs using b64encodeBytes.induct with
  | case1 => simp [b64encodeBytes, b64decodeQuads]
  | case2 b1 =>
    have hb1 : b1 < 256 := hb b1 (by simp)
    rw [b64encodeBytes, b64decodeQuads]
    rw [if_pos ⟨isB64Char_b64Char _ (by omega), isB64Char_b64Char _ (by omega)⟩]
    rw [if_pos rfl, if_pos ⟨rfl, rfl⟩]
    rw [b64Index_b64Char _ (by omega), b64Index_b64Char _ (by omega)]
    congr 2
    omega
  | case3 b1 b2 =>
    have hb1 : b1 < 256 := hb b1 (by simp)
    have hb2 : b2 < 256 := hb b2 (by simp)
    rw [b64encodeBytes, b64decodeQuads]
    rw [if_pos ⟨isB64Char_b64Char _ (by omega), isB64Char_b64Char _ (by omega)⟩]
    rw [if_neg (b64Char_ne_eq _ (by omega))]
    rw [if_pos (isB64Char_b64Char _ (by omega))]
    rw [if_pos rfl, if_pos rfl]
    rw [b64Index_b64Char _ (by omega), b64Index_b64Char _ (by omega),
      b64Index_b64Char _ (by omega)]
    congr 1
    congr 1
    · omega
    · congr 1
      omega
  | case4 b1 b2 b3 rest ih =>
    have hb1 : b1 < 256 := hb b1 (by simp)
    have hb2 : b2 < 256 := hb b2 (by simp)
    have hb3 : b3 < 256 := hb b3 (by simp)
    have hrest : ∀ b ∈ rest, b < 256 := fun b hm => hb b (by simp [hm])
    rw [b64encodeBytes, b64decodeQuads]
    rw [if_pos ⟨isB64Char_b64Char _ (by omega), isB64Char_b64Char _ (by omega)⟩]
    rw [if_neg (b64Char_ne_eq _ (by omega))]
    rw [if_pos (isB64Char_b64Char _ (by omega))]
    rw [if_neg (b64Char_ne_eq _ (by omega))]
    rw [if_pos (isB64Char_b64Char _ (by omega))]
    rw [ih hrest]
    simp only [Option.map_some']
    congr 1
    rw [b64Index_b64Char _ (by omega), b64Index_b64Char _ (by omega),
      b64Index_b64Char _ (by omega), b64Index_b64Char _ (by omega)]
    congr 1
    · omega
    · congr 1
      · omega
      · congr 1
        omega

/-- `b64decode` inverts `b64encode` on byte lists. -/
theorem b64decodeChars_encode (bs : List Nat) (hb : ∀ b ∈ bs, b < 256) :
    b64decodeChars (b64encodeBytes bs) = some bs := by
  unfold b64decodeChars
  rw [b64filter_encode, b64decodeQuads_encode bs hb]

/-! ### UTF-8

Model of Python's `str.encode()` / `bytes.decode()` (UTF-8). -/

/-- UTF-8 encoding of a single code point. -/
def utf8EncodeChar (c : Char) : List Nat :=
  let n := c.toNat
  if n < 128 then [n]
  else if n < 2048 then [192 + n / 64, 128 + n % 64]
  else if n < 65536 then [224 + n / 4096, 128 + n / 64 % 64, 128 + n % 64]
  else [240 + n / 262144, 128 + n / 4096 % 64, 128 + n / 64 % 64, 128 + n % 64]

/-- Model of `str.encode()`. -/
def utf8Encode : List Char → List Nat
  | [] => []
  | c :: cs => utf8EncodeChar c ++ utf8Encode cs

/-- Decode one UTF-8-encoded code point from a leading byte and the remaining
bytes; fails on malformed sequences. -/
def utf8DecodeOne (b0 : Nat) (rest : List Nat) : Option (Char × List Nat) :=
  if b0 < 128 then some (Char.ofNat b0, rest)
  else if b0 < 192 then none
  else if b0 < 224 then
    match rest with
    | b1 :: rest1 =>
      if 128 ≤ b1 ∧ b1 < 192 then
        some (Char.ofNat ((b0 - 192) * 64 + (b1 - 128)), rest1)
      else none
    | [] => none
  else if b0 < 240 then
    match rest with
    | b1 :: b2 :: rest2 =>
      if (128 ≤ b1 ∧ b1 < 192) ∧ (128 ≤ b2 ∧ b2 < 192) then
        some (Char.ofNat ((b0 - 224) * 4096 + (b1 - 128) * 64 + (b2 - 128)), rest2)
      else none
    | _ => none
  else if b0 < 248 then
    match rest with
    | b1 :: b2 :: b3 :: rest3 =>
      if (128 ≤ b1 ∧ b1 < 192) ∧ (128 ≤ b2 ∧ b2 < 192) ∧ (128 ≤ b3 ∧ b3 < 192) then
        some (Char.ofNat ((b0 - 240) * 262144 + (b1 - 128) * 4096
          + (b2 - 128) * 64 + (b3 - 128)), rest3)
      else none
    | _ => none
  else none

/-- Fuel-bounded UTF-8 decoding loop (one unit of fuel per decoded character;
a byte list of length `n` never holds more than `n` characters). -/
def utf8DecodeFuel : Nat → List Nat → Option (List Char)
  | _, [] => some []
  | 0, _ :: _ => none
  | fuel + 1, b0 :: rest =>
    match utf8DecodeOne b0 rest with
    | some (c, rest1) => (utf8DecodeFuel fuel rest1).map (fun cs => c :: cs)
    | none => none

/-- Model of `bytes.decode()`: fails on malformed byte sequences. -/
def utf8Decode (l : List Nat) : Option (List Char) := utf8DecodeFuel l.length l

theorem char_toNat_lt (c : Char) : c.toNat < 1114112 := by
  have h := c.valid
  rcases h with h | h
  · have : c.val.toNat < 55296 := h
    unfold Char.toNat
    omega
  · have : c.val.toNat < 1114112 := h.2
    unfold Char.toNat
    omega

theorem utf8EncodeChar_lt_256 (c : Char) : ∀ b ∈ utf8EncodeChar c, b < 256 := by
  have hv := char_toNat_lt c
  unfold utf8EncodeChar
  intro b hb
  by_cases h1 : c.toNat < 128
  · rw [if_pos h1] at hb
    simp only [List.mem_singleton] at hb
    omega
  · rw [if_neg h1] at hb
    by_cases h2 : c.toNat < 2048
    · rw [if_pos h2] at hb
      simp only [List.mem_cons, List.not_mem_nil, or_false] at hb
      rcases hb with rfl | rfl <;> omega
    · rw [if_neg h2] at hb
      by_cases h3 : c.toNat < 65536
      · rw [if_pos h3] at hb
        simp only [List.mem_cons, List.not_mem_nil, or_false] at hb
        rcases hb with rfl | rfl | rfl <;> omega
      · rw [if_neg h3] at hb
        simp only [List.mem_cons, List.not_mem_nil, or_false] at hb
        rcases hb with rfl | rfl | rfl | rfl <;> omega

theorem utf8Encode_lt_256 (cs : List Char) : ∀ b ∈ utf8Encode cs, b < 256 := by
  induction cs with
  | nil => simp [utf8Encode]
  | cons c cs ih =>
    intro b hb
    rw [utf8Encode] at hb
    rcases List.mem_append.mp hb with h | h
    · exact utf8EncodeChar_lt_256 c b h
    · exact ih b h

theorem utf8DecodeOne_encodeChar (c : Char) (rest : List Nat) :
    ∃ b0 t, utf8EncodeChar c ++ rest = b0 :: t ∧ utf8DecodeOne b0 t = some (c, rest) := by
  have hv := char_toNat_lt c
  unfold utf8EncodeChar
  by_cases h1 : c.toNat < 128
  · refine ⟨c.toNat, rest, by rw [if_pos h1, List.singleton_append], ?_⟩
    unfold utf8DecodeOne
    rw [if_pos h1, Char.ofNat_toNat]
  · by_cases h2 : c.toNat < 2048
    · refine ⟨192 + c.toNat / 64, (128 + c.toNat % 64) :: rest, by
        rw [if_neg h1, if_pos h2, List.cons_append, List.cons_append, List.nil_append], ?_⟩
      unfold utf8DecodeOne
      rw [if_neg (by omega), if_neg (by omega), if_pos (by omega)]
      show (if 128 ≤ 128 + c.toNat % 64 ∧ 128 + c.toNat % 64 < 192 then
        some (Char.ofNat ((192 + c.toNat / 64 - 192) * 64 + (128 + c.toNat % 64 - 128)), rest)
        else none) = some (c, rest)
      rw [if_pos (by omega : 128 ≤ 128 + c.toNat % 64 ∧ 128 + c.toNat % 64 < 192)]
      congr 2
      have harg : (192 + c.toNat / 64 - 192) * 64 + (128 + c.toNat % 64 - 128) = c.toNat := by
        omega
      rw [harg, Char.ofNat_toNat]
    · by_cases h3 : c.toNat < 65536
      · refine ⟨224 + c.toNat / 4096, (128 + c.toNat / 64 % 64) :: (128 + c.toNat % 64) :: rest, by
          rw [if_neg h1, if_neg h2, if_pos h3, List.cons_append, List.cons_append,
            List.cons_append, List.nil_append], ?_⟩
        unfold utf8DecodeOne
        rw [if_neg (by omega), if_neg (by omega), if_neg (by omega), if_pos (by omega)]
        show (if (128 ≤ 128 + c.toNat / 64 % 64 ∧ 128 + c.toNat / 64 % 64 < 192)
            ∧ (128 ≤ 128 + c.toNat % 64 ∧ 128 + c.toNat % 64 < 192) then
          some (Char.ofNat ((224 + c.toNat / 4096 - 224) * 4096
            + (128 + c.toNat / 64 % 64 - 128) * 64 + (128 + c.toNat % 64 - 128)), rest)
          else none) = some (c, rest)
        rw [if_pos (by refine ⟨⟨?_, ?_⟩, ?_, ?_⟩ <;> omega :
          (128 ≤ 128 + c.toNat / 64 % 64 ∧ 128 + c.toNat / 64 % 64 < 192)
            ∧ (128 ≤ 128 + c.toNat % 64 ∧ 128 + c.toNat % 64 < 192))]
        congr 2
        have harg : (224 + c.toNat / 4096 - 224) * 4096 + (128 + c.toNat / 64 % 64 - 128) * 64
            + (128 + c.toNat % 64 - 128) = c.toNat := by
          omega
        rw [harg, Char.ofNat_toNat]
      · refine ⟨240 + c.toNat / 262144, (128 + c.toNat / 4096 % 64)
          :: (128 + c.toNat / 64 % 64) :: (128 + c.toNat % 64) :: rest, by
          rw [if_neg h1, if_neg h2, if_neg h3, List.cons_append, List.cons_append,
            List.cons_append, List.cons_append, List.nil_append], ?_⟩
        unfold utf8DecodeOne
        rw [if_neg (by omega), if_neg (by omega), if_neg (by omega), if_neg (by omega),
          if_pos (by omega)]
        show (if (128 ≤ 128 + c.toNat / 4096 % 64 ∧ 128 + c.toNat / 4096 % 64 < 192)
            ∧ (128 ≤ 128 + c.toNat / 64 % 64 ∧ 128 + c.toNat / 64 % 64 < 192)
            ∧ (128 ≤ 128 + c.toNat % 64 ∧ 128 + c.toNat % 64 < 192) then
          some (Char.ofNat ((240 + c.toNat / 262144 - 240) * 262144
            + (128 + c.toNat / 4096 % 64 - 128) * 4096
            + (128 + c.toNat / 64 % 64 - 128) * 64 + (128 + c.toNat % 64 - 128)), rest)
          else none) = some (c, rest)
        rw [if_pos (by refine ⟨⟨?_, ?_⟩, ⟨?_, ?_⟩, ?_, ?_⟩ <;> omega :
          (128 ≤ 128 + c.toNat / 4096 % 64 ∧ 128 + c.toNat / 4096 % 64 < 192)
            ∧ (128 ≤ 128 + c.toNat / 64 % 64 ∧ 128 + c.toNat / 64 % 64 < 192)
            ∧ (128 ≤ 128 + c.toNat % 64 ∧ 128 + c.toNat % 64 < 192))]
        congr 2
        have harg : (240 + c.toNat / 262144 - 240) * 262144
            + (128 + c.toNat / 4096 % 64 - 128) * 4096
            + (128 + c.toNat / 64 % 64 - 128) * 64 + (128 + c.toNat % 64 - 128) = c.toNat := by
          omega
        rw [harg, Char.ofNat_toNat]

theorem utf8DecodeFuel_encode (cs : List Char) :
    ∀ fuel, cs.length ≤ fuel → utf8DecodeFuel fuel (utf8Encode cs) = some cs := by
  induction cs with
  | nil =>
    intro fuel _
    cases fuel <;> rfl
  | cons c cs ih =>
    intro fuel hf
    rcases fuel with _ | f
    · simp at hf
    · rw [utf8Encode]
      rcases utf8DecodeOne_encodeChar c (utf8Encode cs) with ⟨b0, t, heq, hdec⟩
      rw [heq]
      rw [utf8DecodeFuel, hdec]
      show (utf8DecodeFuel f (utf8Encode cs)).map (fun cs => c :: cs) = some (c :: cs)
      rw [ih f (by simpa using hf)]
      rfl

theorem utf8Encode_length_ge (cs : List Char) : cs.length ≤ (utf8Encode cs).length := by
  induction cs with
  | nil => simp [utf8Encode]
  | cons c cs ih =>
    rw [utf8Encode, List.length_append, List.length_cons]
    have : 1 ≤ (utf8EncodeChar c).length := by
      unfold utf8EncodeChar
      by_cases h1 : c.toNat < 128
      · simp [h1]
      · by_cases h2 : c.toNat < 2048
        · simp [h1, h2]
        · by_cases h3 : c.toNat < 65536
          · simp [h1, h2, h3]
          · simp [h1, h2, h3]
    omega

/-- `decode` inverts `encode` for UTF-8. -/
theorem utf8Decode_encode (cs : List Char) : utf8Decode (utf8Encode cs) = some cs := by
  unfold utf8Decode
  exact utf8DecodeFuel_encode cs _ (le_trans (utf8Encode_length_ge cs) (le_refl _))

/-! ### JSON record codec

Model of `json.dumps` / `json.loads` restricted to the flat string-valued
object the proof codec produces: `json.dumps` renders
`{"k1": "v1", ..., "k6": "v6"}` with the default `", "` / `": "` separators,
escaping backslash and double quote inside string values (the library's
additional `\uXXXX` escaping of non-ASCII characters is a representation
choice that does not affect reversibility and is not modelled);
`json.loads` on such a document recovers the fields. -/

/-- Escape a JSON string value body. -/
def escapeStr : List Char → List Char
  | [] => []
  | c :: cs => if c = '\\' ∨ c = '"' then '\\' :: c :: escapeStr cs else c :: escapeStr cs

mutual

/-- Parse a JSON string value body up to the closing quote; returns the
unescaped body and the remaining input. -/
def parseStrBody : List Char → Option (List Char × List Char)
  | [] => none
  | c :: cs =>
    if c = '"' then some ([], cs)
    else if c = '\\' then parseStrBodyEsc cs
    else (parseStrBody cs).map (fun p => (c :: p.1, p.2))
  termination_by l => l.length

/-- Parse the character following a backslash escape. -/
def parseStrBodyEsc : List Char → Option (List Char × List Char)
  | [] => none
  | e :: cs => (parseStrBody cs).map (fun p => (e :: p.1, p.2))
  termination_by l => l.length

end

/-- Consume an expected literal character sequence. -/
def consumeLit : List Char → List Char → Option (List Char)
  | [], cs => some cs
  | _ :: _, [] => none
  | l :: ls, c :: cs => if c = l then consumeLit ls cs else none

/-- The characters a JSON key contributes up to and including the opening
quote of its value: `"key": "`. -/
def jsonKey (k : String) : List Char := '"' :: (k.data ++ ['"', ':', ' ', '"'])

/-- Model of `json.dumps` on the proof record
`{"transfer_id": v1, "tx_hash": v2, "amount": v3, "currency": v4,
"payer": v5, "timestamp": v6}` (insertion order, default separators). -/
def dumpsProofJson (v1 v2 v3 v4 v5 v6 : String) : List Char :=
  '{' :: (jsonKey "transfer_id" ++ escapeStr v1.data ++ '"' ::
    (',' :: ' ' :: (jsonKey "tx_hash" ++ escapeStr v2.data ++ '"' ::
    (',' :: ' ' :: (jsonKey "amount" ++ escapeStr v3.data ++ '"' ::
    (',' :: ' ' :: (jsonKey "currency" ++ escapeStr v4.data ++ '"' ::
    (',' :: ' ' :: (jsonKey "payer" ++ escapeStr v5.data ++ '"' ::
    (',' :: ' ' :: (jsonKey "timestamp" ++ escapeStr v6.data ++ ['"', '}'])))))))))))

/-- Parse one `"key": "value"` group. -/
def parseKeyed (k : String) (cs : List Char) : Option (List Char × List Char) :=
  (consumeLit (jsonKey k) cs).bind parseStrBody

/-- Model of `json.loads` restricted to the proof record shape, returning the
six field values. -/
def parseProofJson (cs : List Char) :
    Option (String × String × String × String × String × String) :=
  (consumeLit ['{'] cs).bind (fun cs0 =>
    (parseKeyed "transfer_id" cs0).bind (fun p1 =>
      (consumeLit [',', ' '] p1.2).bind (fun d1 =>
        (parseKeyed "tx_hash" d1).bind (fun p2 =>
          (consumeLit [',', ' '] p2.2).bind (fun d2 =>
            (parseKeyed "amount" d2).bind (fun p3 =>
              (consumeLit [',', ' '] p3.2).bind (fun d3 =>
                (parseKeyed "currency" d3).bind (fun p4 =>
                  (consumeLit [',', ' '] p4.2).bind (fun d4 =>
                    (parseKeyed "payer" d4).bind (fun p5 =>
                      (consumeLit [',', ' '] p5.2).bind (fun d5 =>
                        (parseKeyed "timestamp" d5).bind (fun p6 =>
                          (consumeLit ['}'] p6.2).bind (fun d6 =>
                            if d6 = [] then
                              some (⟨p1.1⟩, ⟨p2.1⟩, ⟨p3.1⟩, ⟨p4.1⟩, ⟨p5.1⟩, ⟨p6.1⟩)
                            else none)))))))))))))

theorem parseStrBody_escape (s : List Char) (rest : List Char) :
    parseStrBody (escapeStr s ++ '"' :: rest) = some (s, rest) := by
  induction s with
  | nil =>
    rw [escapeStr, List.nil_append, parseStrBody, if_pos rfl]
  | cons c cs ih =>
    rw [escapeStr]
    by_cases hc : c = '\\' ∨ c = '"'
    · rw [if_pos hc, List.cons_append, List.cons_append, parseStrBody]
      rw [if_neg (by decide), if_pos rfl, parseStrBodyEsc, ih]
      rfl
    · rw [if_neg hc]
      push_neg at hc
      rw [List.cons_append, parseStrBody, if_neg hc.2, if_neg hc.1, ih]
      rfl

theorem consumeLit_append (l r : List Char) : consumeLit l (l ++ r) = some r := by
  induction l with
  | nil => rw [List.nil_append, consumeLit]
  | cons c cs ih =>
    rw [List.cons_append, consumeLit, if_pos rfl, ih]

theorem parseKeyed_dumps (k : String) (v rest : List Char) :
    parseKeyed k (jsonKey k ++ escapeStr v ++ '"' :: rest) = some (v, rest) := by
  unfold parseKeyed
  rw [List.append_assoc, consumeLit_append, Option.some_bind]
  exact parseStrBody_escape v rest

theorem consumeLit_single (c : Char) (r : List Char) : consumeLit [c] (c :: r) = some r := by
  rw [consumeLit, if_pos rfl, consumeLit]

theorem consumeLit_pair (a b : Char) (r : List Char) :
    consumeLit [a, b] (a :: b :: r) = some r := by
  rw [consumeLit, if_pos rfl, consumeLit, if_pos rfl, consumeLit]

/-- `json.loads` inverts `json.dumps` on the proof record. -/
theorem parseProofJson_dumps (v1 v2 v3 v4 v5 v6 : String) :
    parseProofJson (dumpsProofJson v1 v2 v3 v4 v5 v6) = some (v1, v2, v3, v4, v5, v6) := by
  unfold dumpsProofJson parseProofJson
  simp only [consumeLit_single, consumeLit_pair, parseKeyed_dumps, Option.some_bind]
  rfl

/-! ### PaymentProof and its codec (`src/agents/x402_handler.py`, class `PaymentProof`) -/

/-- Proof of payment to include in the retry request
(`x402_handler.py` lines 120–128).  `amount` is a Python float, modelled as an
exact rational; `timestamp` a `datetime`, modelled as microseconds since epoch. -/
structure PaymentProof where
  transfer_id : String
  tx_hash : String
  amount : ℚ
  currency : String
  payer_address : String
  timestamp : Nat
deriving DecidableEq, Repr

/-- `PaymentProof.to_header` (lines 130–141): serialize the six fields as a JSON
record (`amount` via `str`, `timestamp` via `isoformat`), UTF-8-encode, then
base64-encode into a single header value. -/
def PaymentProof.to_header (p : PaymentProof) : String :=
  ⟨b64encodeBytes (utf8Encode (dumpsProofJson p.transfer_id p.tx_hash
    (floatStr p.amount) p.currency p.payer_address (natStr p.timestamp)))⟩

/-- `PaymentProof.from_header` (lines 143–155): base64-decode, UTF-8-decode,
parse the JSON record and convert the numeric fields back (`float`,
`fromisoformat`).  The Python original raises on malformed input; failure is
modelled as `none`. -/
def PaymentProof.from_header (s : String) : Option PaymentProof :=
  (b64decodeChars s.data).bind (fun bytes =>
    (utf8Decode bytes).bind (fun chars =>
      (parseProofJson chars).bind (fun v =>
        (floatParse v.2.2.1).bind (fun amount =>
          (natParse v.2.2.2.2.2).map (fun ts =>
            { transfer_id := v.1, tx_hash := v.2.1, amount := amount,
              currency := v.2.2.2.1, payer_address := v.2.2.2.2.1, timestamp := ts })))))

/-- C4: for every `PaymentProof p`, decoding the encoded header token
(`from_header` applied to `to_header p`) yields a proof equal to `p`
field-for-field: `transfer_id`, `tx_hash`, `amount`, `currency`,
`payer_address` and `timestamp` are all preserved. -/
theorem paymentProof_header_roundtrip (p : PaymentProof) :
    PaymentProof.from_header p.to_header = some p := by
  unfold PaymentProof.to_header PaymentProof.from_header
  rw [show (⟨b64encodeBytes (utf8Encode (dumpsProofJson p.transfer_id p.tx_hash
      (floatStr p.amount) p.currency p.payer_address (natStr p.timestamp)))⟩ : String).data
    = b64encodeBytes (utf8Encode (dumpsProofJson p.transfer_id p.tx_hash
      (floatStr p.amount) p.currency p.payer_address (natStr p.timestamp))) from rfl]
  rw [b64decodeChars_encode _ (utf8Encode_lt_256 _), Option.some_bind]
  rw [utf8Decode_encode, Option.some_bind]
  rw [parseProofJson_dumps, Option.some_bind]
  rw [floatParse_floatStr, Option.some_bind]
  rw [natParse_natStr, Option.map_some']

/-! ### Proof verification (`src/agents/x402_handler.py`, `verify_payment_proof`) -/

/-- `verify_payment_proof` (lines 479–505): decode the proof header; a decoding
failure (Python: any exception) yields `(False, None)`; a decoded proof whose
amount is below 99% of the expected amount is invalid; otherwise valid.  The
`expected_recipient` argument is accepted but never inspected, exactly as in
the source. -/
def verify_payment_proof (proof_header : String) (expected_amount : ℚ)
    (_expected_recipient : String) : Bool × Option PaymentProof :=
  match PaymentProof.from_header proof_header with
  | none => (false, none)
  | some proof =>
    if proof.amount < expected_amount * (99 / 100) then (false, some proof)
    else (true, some proof)

/-- C8: for every malformed proof token — any token the codec fails to decode,
such as `"not-base64!!"` — proof verification returns the failure result
`(false, none)` rather than propagating the decoding error to the caller. -/
theorem verify_payment_proof_malformed (s : String) (amount : ℚ) (recipient : String)
    (h : PaymentProof.from_header s = none) :
    verify_payment_proof s amount recipient = (false, none) := by
  unfold verify_payment_proof
  rw [h]

/-- Witness for C8 at the spec's concrete scenario input `"not-base64!!"`. -/
theorem verify_payment_proof_malformed_witness :
    PaymentProof.from_header "not-base64!!" = none
      ∧ verify_payment_proof "not-base64!!" 1 "0xABCtest" = (false, none) := by
  have h : PaymentProof.from_header "not-base64!!" = none := by decide
  exact ⟨h, verify_payment_proof_malformed "not-base64!!" 1 "0xABCtest" h⟩

/-! ### Event types (`src/agents/event_bus.py`, `EventType`) -/

/-- The event type enum of `event_bus.py` (lines 13–26). -/
inductive EventType where
  | deposit_initiated | deposit_completed | deposit_failed
  | withdraw_initiated | withdraw_completed | withdraw_failed
  | compound_initiated | compound_completed | compound_failed
  | receipt_generated | agent_started | agent_stopped
deriving DecidableEq, Repr

/-! ### JSON body values

Model of the dynamically-typed values a parsed JSON response body may hold. -/

inductive JsonVal where
  | str (s : String)
  | num (q : ℚ)
  | jbool (b : Bool)
  | null
deriving DecidableEq, Repr

/-- Python truthiness of `dict.get(k)` (missing key gives `None`, falsy). -/
def truthyVal : Option JsonVal → Bool
  | none => false
  | some (.str s) => s ≠ ""
  | some (.num q) => q ≠ 0
  | some (.jbool b) => b
  | some .null => false

/-- Python truthiness of an optional string. -/
def truthyStr : Option String → Bool
  | none => false
  | some s => s ≠ ""

/-- `dict.get` on an association-list dictionary. -/
def dictGet {κ α : Type} [DecidableEq κ] (d : List (κ × α)) (k : κ) : Option α :=
  (d.find? (fun kv => kv.1 = k)).map (fun kv => kv.2)

/-- `dict.get` with a default. -/
def dictGetD {κ α : Type} [DecidableEq κ] (d : List (κ × α)) (k : κ) (v : α) : α :=
  (dictGet d k).getD v

/-- `dict[k] = v` on an association-list dictionary: replace the existing
binding or append a new one. -/
def dictInsert {κ α : Type} [DecidableEq κ] : List (κ × α) → κ → α → List (κ × α)
  | [], k, v => [(k, v)]
  | (k', v') :: rest, k, v =>
    if k' = k then (k, v) :: rest else (k', v') :: dictInsert rest k v

/-- Python `float` applied to a JSON value (as in
`float(body.get("amount", 0))`): numbers and booleans convert, strings are
parsed, `null` raises `TypeError`. -/
def pyFloatVal : JsonVal → Except String ℚ
  | .num q => .ok q
  | .str s => match floatParse s with
    | some q => .ok q
    | none => .error "ValueError"
  | .jbool b => .ok (if b then 1 else 0)
  | .null => .error "TypeError"

/-- Python `float` applied to a string (raises `ValueError` when unparsable). -/
def pyFloatStr (s : String) : Except String ℚ :=
  match floatParse s with
  | some q => .ok q
  | none => .error "ValueError"

/-- A JSON value read into a string-typed dataclass field; the fields this is
used for carry strings on every input the protocol produces. -/
def asStrVal : JsonVal → String
  | .str s => s
  | _ => ""

/-! ### PaymentRequirement and its parsers (`src/agents/x402_handler.py`) -/

/-- `PaymentScheme` (lines 25–28). -/
inductive PaymentScheme where
  | usdc | exact
deriving DecidableEq, Repr

/-- Parsed payment requirement from a 402 response (lines 31–43). -/
structure PaymentRequirement where
  amount : ℚ
  currency : String
  recipient_address : String
  network : String
  payment_id : Option String := none
  description : Option String := none
  expires_at : Option Nat := none
  min_amount : Option ℚ := none
  max_amount : Option ℚ := none
  scheme : PaymentScheme := .usdc
deriving DecidableEq, Repr

/-- `PaymentRequirement.from_headers` (lines 45–79): read the `X-Payment-*`
headers with their defaults; `float` failures (`ValueError`) propagate. -/
def PaymentRequirement.from_headers (headers : List (String × String)) :
    Except String PaymentRequirement := do
  let amount ← pyFloatStr (dictGetD headers "X-Payment-Amount" "0")
  let min_amount ←
    if truthyStr (dictGet headers "X-Payment-Min-Amount") then
      (pyFloatStr ((dictGet headers "X-Payment-Min-Amount").getD "")).map some
    else pure none
  let max_amount ←
    if truthyStr (dictGet headers "X-Payment-Max-Amount") then
      (pyFloatStr ((dictGet headers "X-Payment-Max-Amount").getD "")).map some
    else pure none
  pure {
    amount := amount
    currency := dictGetD headers "X-Payment-Currency" "USDC"
    recipient_address := dictGetD headers "X-Payment-Address" ""
    network := dictGetD headers "X-Payment-Network" "ARC"
    payment_id := dictGet headers "X-Payment-Id"
    description := dictGet headers "X-Payment-Description"
    min_amount := min_amount
    max_amount := max_amount }

/-- `PaymentRequirement.from_json_body` (lines 81–106). -/
def PaymentRequirement.from_json_body (body : List (String × JsonVal)) :
    Except String PaymentRequirement := do
  let amount ← pyFloatVal (dictGetD body "amount" (.num 0))
  pure {
    amount := amount
    currency := asStrVal (dictGetD body "currency" (.str "USDC"))
    recipient_address := asStrVal ((dictGet body "recipient").getD
      ((dictGet body "address").getD (.str "")))
    network := asStrVal (dictGetD body "network" (.str "ARC"))
    payment_id := (dictGet body "payment_id").map asStrVal
    description := (dictGet body "description").map asStrVal
    min_amount := match dictGet body "min_amount" with
      | some (.num q) => some q
      | _ => none
    max_amount := match dictGet body "max_amount" with
      | some (.num q) => some q
      | _ => none }

/-- Model of Python `str.lower()` on the ASCII range (header values are
ASCII). -/
def pyLower (s : String) : String :=
  ⟨s.data.map (fun c =>
    if 65 ≤ c.toNat ∧ c.toNat ≤ 90 then Char.ofNat (c.toNat + 32) else c)⟩

/-- `X402Handler._is_402_response` (lines 204–209): status 402, or the
`X-Payment-Required` header equal to `"true"` after lowercasing. -/
def is_402_response (status : Nat) (headers : List (String × String)) : Bool :=
  if status = 402 then true
  else pyLower (dictGetD headers "X-Payment-Required" "") = "true"

/-- Python truthiness of `body and body.get("payment_required")` for an
optional JSON body dictionary. -/
def bodyFlagged (body : Option (List (String × JsonVal))) : Bool :=
  match body with
  | some b => decide (b ≠ []) && truthyVal (dictGet b "payment_required")
  | none => false

/-- `X402Handler._parse_payment_requirement` (lines 211–229): `none` when the
response is not payment-required; headers preferred when the amount header is
truthy; else the JSON body when present and flagged; else `none`. -/
def parse_payment_requirement (status : Nat) (headers : List (String × String))
    (body : Option (List (String × JsonVal))) :
    Except String (Option PaymentRequirement) :=
  if ¬ is_402_response status headers then .ok none
  else if truthyStr (dictGet headers "X-Payment-Amount") then
    (PaymentRequirement.from_headers headers).map some
  else if bodyFlagged body then
    (PaymentRequirement.from_json_body (body.getD [])).map some
  else .ok none

/-! ### Gateway transfers and settlement polling (`src/agents/gateway_client.py`) -/

/-- `TransferStatus` (lines 24–28). -/
inductive TransferStatus where
  | pending | complete | failed
deriving DecidableEq, Repr

/-- `Transfer` (lines 62–73); `amount` is a decimal string in the source,
`created_at` is omitted as no modelled code reads it. -/
structure Transfer where
  id : String
  source_wallet_id : String
  destination_address : String
  amount : String
  currency : String
  status : TransferStatus
  chain : String := "ARB-SEPOLIA"
  tx_hash : Option String := none
deriving DecidableEq, Repr

/-- Error taxonomy raised by the modelled call paths:
`CircleGatewayError`, Python `TimeoutError` (settlement timeout),
`X402PaymentError`, and `ValueError`/`TypeError` from `float`. -/
inductive X402Err where
  | gatewayError (msg : String)
  | timeoutError (msg : String)
  | paymentError (msg : String)
  | valueError (msg : String)
deriving DecidableEq, Repr

/-- Externally visible actions one handler call performs, in order. -/
inductive Act where
  | httpReq (attempt : Nat)
  | railCreate
  | railPoll (k : Nat)
  | histAppend
  | pub (e : EventType)
deriving DecidableEq, Repr

/-- The payment rail's behaviour for one handler call: the result of the
transfer creation and of each status poll for that transfer. -/
structure RailEnv where
  createResult : Except String Transfer
  pollResult : Nat → Except String Transfer

/-- `CircleGatewayClient.wait_for_transfer_completion` (lines 380–415) polling
loop: poll; return on `complete`; raise `CircleGatewayError` on `failed`;
raise `TimeoutError` once the elapsed time reaches the timeout, i.e. after at
most `fuel` further sleep/poll rounds (the k-th poll happens at time
`k · poll_interval`, so `fuel = ⌈timeout / poll_interval⌉`). -/
def waitLoop (rail : RailEnv) : Nat → Nat → Except X402Err Transfer × List Act
  | k, fuel =>
    match rail.pollResult k with
    | .error e => (.error (X402Err.gatewayError e), [Act.railPoll k])
    | .ok t =>
      if t.status = TransferStatus.complete then (.ok t, [Act.railPoll k])
      else if t.status = TransferStatus.failed then
        (.error (X402Err.gatewayError "Transfer failed"), [Act.railPoll k])
      else
        match fuel with
        | 0 => (.error (X402Err.timeoutError "Transfer did not complete within timeout"),
            [Act.railPoll k])
        | fuel' + 1 =>
          let w := waitLoop rail (k + 1) fuel'
          (w.1, Act.railPoll k :: w.2)

/-- `wait_for_transfer_completion` entry point (first poll at elapsed 0). -/
def wait_for_transfer_completion (rail : RailEnv) (maxPolls : Nat) :
    Except X402Err Transfer × List Act :=
  waitLoop rail 0 maxPolls

theorem waitLoop_ok (rail : RailEnv) :
    ∀ fuel k t tr, waitLoop rail k fuel = (.ok t, tr) →
      t.status = TransferStatus.complete
        ∧ ∃ j, rail.pollResult j = .ok t ∧ Act.railPoll j ∈ tr := by
  intro fuel
  induction fuel with
  | zero =>
    intro k t tr h
    rw [waitLoop] at h
    rcases hp : rail.pollResult k with e | t0 <;> rw [hp] at h <;> simp only [] at h
    · simp at h
    · by_cases hc : t0.status = TransferStatus.complete
      · rw [if_pos hc] at h
        simp only [Prod.mk.injEq, Except.ok.injEq] at h
        obtain ⟨rfl, rfl⟩ := h
        exact ⟨hc, k, hp, by simp⟩
      · rw [if_neg hc] at h
        by_cases hf : t0.status = TransferStatus.failed
        · rw [if_pos hf] at h
          simp at h
        · rw [if_neg hf] at h
          simp at h
  | succ fuel ih =>
    intro k t tr h
    rw [waitLoop] at h
    rcases hp : rail.pollResult k with e | t0 <;> rw [hp] at h <;> simp only [] at h
    · simp at h
    · by_cases hc : t0.status = TransferStatus.complete
      · rw [if_pos hc] at h
        simp only [Prod.mk.injEq, Except.ok.injEq] at h
        obtain ⟨rfl, rfl⟩ := h
        exact ⟨hc, k, hp, by simp⟩
      · rw [if_neg hc] at h
        by_cases hf : t0.status = TransferStatus.failed
        · rw [if_pos hf] at h
          simp at h
        · rw [if_neg hf] at h
          simp only [Prod.mk.injEq] at h
          obtain ⟨h1, rfl⟩ := h
          obtain ⟨hst, j, hj, hmem⟩ := ih (k + 1) t (waitLoop rail (k + 1) fuel).2
            (by rw [← h1])
          exact ⟨hst, j, hj, List.mem_cons_of_mem _ hmem⟩

theorem waitLoop_acts (rail : RailEnv) :
    ∀ fuel k, ∀ a ∈ (waitLoop rail k fuel).2, ∃ j, a = Act.railPoll j := by
  intro fuel
  induction fuel with
  | zero =>
    intro k a ha
    rw [waitLoop] at ha
    rcases hp : rail.pollResult k with e | t0 <;> rw [hp] at ha <;> simp only [] at ha
    · simp at ha
      exact ⟨k, ha⟩
    · by_cases hc : t0.status = TransferStatus.complete
      · rw [if_pos hc] at ha
        simp at ha
        exact ⟨k, ha⟩
      · rw [if_neg hc] at ha
        by_cases hf : t0.status = TransferStatus.failed
        · rw [if_pos hf] at ha
          simp at ha
          exact ⟨k, ha⟩
        · rw [if_neg hf] at ha
          simp at ha
          exact ⟨k, ha⟩
  | succ fuel ih =>
    intro k a ha
    rw [waitLoop] at ha
    rcases hp : rail.pollResult k with e | t0 <;> rw [hp] at ha <;> simp only [] at ha
    · simp at ha
      exact ⟨k, ha⟩
    · by_cases hc : t0.status = TransferStatus.complete
      · rw [if_pos hc] at ha
        simp at ha
        exact ⟨k, ha⟩
      · rw [if_neg hc] at ha
        by_cases hf : t0.status = TransferStatus.failed
        · rw [if_pos hf] at ha
          simp at ha
          exact ⟨k, ha⟩
        · rw [if_neg hf] at ha
          simp only [List.mem_cons] at ha
          rcases ha with rfl | ha
          · exact ⟨k, rfl⟩
          · exact ih (k + 1) a ha

/-! ### Autonomous payment execution (`X402Handler._execute_payment`) -/

/-- `PaymentRequirement.to_dict` (lines 108–117). -/
structure ReqDict where
  amount : ℚ
  currency : String
  recipient_address : String
  network : String
  payment_id : Option String
  description : Option String
deriving DecidableEq, Repr

def PaymentRequirement.to_dict (r : PaymentRequirement) : ReqDict :=
  { amount := r.amount, currency := r.currency,
    recipient_address := r.recipient_address, network := r.network,
    payment_id := r.payment_id, description := r.description }

/-- One record of `X402Handler._payment_history` (lines 290–296). -/
structure HistoryRec where
  requirement : ReqDict
  transfer_id : String
  tx_hash : String
  timestamp : Nat
deriving DecidableEq, Repr

/-- The handler's configuration (constructor arguments, lines 166–190).
`maxPolls` is the settlement-poll budget `⌈timeout / poll_interval⌉` of the
30 s / 2 s wait in `_execute_payment`. -/
structure HandlerCfg where
  source_wallet_id : String
  payer_address : String
  max_auto_payment : ℚ
  maxPolls : Nat
deriving Repr

/-- Python `a or b` on an optional string (`None` and `""` are falsy). -/
def pyOrStr (o : Option String) (d : String) : String :=
  match o with
  | some s => if s = "" then d else s
  | none => d

/-- `X402Handler._execute_payment` (lines 231–311): guardrail check first;
then publish `DEPOSIT_INITIATED`; create the transfer; await settlement;
build the proof (`amount := requirement.amount`); append the history record;
publish `DEPOSIT_COMPLETED`.  Returns the result, the action trace in order,
and the new payment history. -/
def execute_payment (rail : RailEnv) (cfg : HandlerCfg) (req : PaymentRequirement)
    (now : Nat) (hist : List HistoryRec) :
    Except X402Err (Transfer × PaymentProof) × List Act × List HistoryRec :=
  if req.amount > cfg.max_auto_payment then
    (.error (X402Err.paymentError "Payment amount exceeds max auto-payment"), [], hist)
  else
    match rail.createResult with
    | .error e => (.error (X402Err.gatewayError e),
        [Act.pub EventType.deposit_initiated, Act.railCreate], hist)
    | .ok transfer =>
      let w := waitLoop rail 0 cfg.maxPolls
      match w.1 with
      | .error e => (.error e,
          Act.pub EventType.deposit_initiated :: Act.railCreate :: w.2, hist)
      | .ok completed =>
        let proof : PaymentProof := {
          transfer_id := completed.id
          tx_hash := pyOrStr completed.tx_hash ("0x" ++ transfer.id)
          amount := req.amount
          currency := req.currency
          payer_address := cfg.payer_address
          timestamp := now }
        let hrec : HistoryRec := {
          requirement := req.to_dict
          transfer_id := transfer.id
          tx_hash := proof.tx_hash
          timestamp := proof.timestamp }
        (.ok (completed, proof),
          Act.pub EventType.deposit_initiated :: Act.railCreate ::
            (w.2 ++ Act.histAppend :: [Act.pub EventType.deposit_completed]),
          hist ++ [hrec])

/-- C2: for every parsed requirement whose amount strictly exceeds the
configured `max_auto_payment` ceiling, `_execute_payment` raises the guardrail
payment error and performs zero calls to the payment rail in that call: no
transfer creation and no status poll appear in the call's action trace (the
trace is empty), and the payment history is untouched. -/
theorem execute_payment_ceiling (rail : RailEnv) (cfg : HandlerCfg)
    (req : PaymentRequirement) (now : Nat) (hist : List HistoryRec)
    (h : req.amount > cfg.max_auto_payment) :
    execute_payment rail cfg req now hist
        = (.error (X402Err.paymentError "Payment amount exceeds max auto-payment"), [], hist)
      ∧ Act.railCreate ∉ (execute_payment rail cfg req now hist).2.1
      ∧ ∀ k, Act.railPoll k ∉ (execute_payment rail cfg req now hist).2.1 := by
  have he : execute_payment rail cfg req now hist
      = (.error (X402Err.paymentError "Payment amount exceeds max auto-payment"), [], hist) := by
    unfold execute_payment
    rw [if_pos h]
  refine ⟨he, ?_, ?_⟩
  · rw [he]
    simp
  · intro k
    rw [he]
    simp

/-- Witness for C2 at the spec's ceiling-breach scenario:
`max_auto_payment = 1`, requirement amount `5`. -/
theorem execute_payment_ceiling_witness :
    execute_payment
        { createResult := .error "unused", pollResult := fun _ => .error "unused" }
        { source_wallet_id := "w1", payer_address := "0xPayer",
          max_auto_payment := 1, maxPolls := 15 }
        { amount := 5, currency := "USDC", recipient_address := "0xABCtest", network := "ARC" }
        0 []
      = (.error (X402Err.paymentError "Payment amount exceeds max auto-payment"), [], []) := by
  exact (execute_payment_ceiling _ _ _ _ _ (by norm_num)).1

/-- C3: every proof produced by a successful `_execute_payment` carries exactly
the triggering requirement's amount, and the transfer it references is the one
returned by settlement polling, which has reached `complete` status. -/
theorem execute_payment_proof_invariant (rail : RailEnv) (cfg : HandlerCfg)
    (req : PaymentRequirement) (now : Nat) (hist : List HistoryRec)
    (ct : Transfer) (proof : PaymentProof) (tr : List Act) (hist' : List HistoryRec)
    (h : execute_payment rail cfg req now hist = (.ok (ct, proof), tr, hist')) :
    proof.amount = req.amount ∧ ct.status = TransferStatus.complete
      ∧ proof.transfer_id = ct.id := by
  unfold execute_payment at h
  by_cases hg : req.amount > cfg.max_auto_payment
  · rw [if_pos hg] at h
    simp at h
  · rw [if_neg hg] at h
    rcases hc : rail.createResult with e | transfer <;> rw [hc] at h <;> simp only [] at h
    · simp at h
    · rcases hw : (waitLoop rail 0 cfg.maxPolls).1 with e | completed <;> rw [hw] at h
        <;> simp only [] at h
      · simp at h
      · simp only [Prod.mk.injEq, Except.ok.injEq] at h
        obtain ⟨⟨rfl, rfl⟩, -, -⟩ := h
        obtain ⟨hst, -⟩ := waitLoop_ok rail cfg.maxPolls 0 completed
          (waitLoop rail 0 cfg.maxPolls).2 (by rw [← hw])
        exact ⟨rfl, hst, rfl⟩

/-- Shared concrete fixtures for the handler witnesses. -/
def tPending : Transfer :=
  { id := "demo-txn-1", source_wallet_id := "w1", destination_address := "0xABCtest",
    amount := "1", currency := "USDC", status := .pending, chain := "ARC",
    tx_hash := some "0xdeadbeef" }

def tComplete : Transfer := { tPending with status := .complete }

def tFailed : Transfer := { tPending with status := .failed }

/-- A rail on which the transfer is created and settles on the first poll. -/
def railOk : RailEnv :=
  { createResult := .ok tPending, pollResult := fun _ => .ok tComplete }

/-- A rail on which the transfer never leaves `pending`. -/
def railStuck : RailEnv :=
  { createResult := .ok tPending, pollResult := fun _ => .ok tPending }

def cfg0 : HandlerCfg :=
  { source_wallet_id := "w1", payer_address := "0xPayer",
    max_auto_payment := 10, maxPolls := 15 }

def req0 : PaymentRequirement :=
  { amount := 1, currency := "USDC", recipient_address := "0xABCtest", network := "ARC" }

/-- Witness for C3 on a settling rail. -/
theorem execute_payment_proof_invariant_witness :
    ({ transfer_id := "demo-txn-1", tx_hash := "0xdeadbeef", amount := 1,
       currency := "USDC", payer_address := "0xPayer", timestamp := 7 } : PaymentProof).amount
        = req0.amount
      ∧ tComplete.status = TransferStatus.complete
      ∧ ({ transfer_id := "demo-txn-1", tx_hash := "0xdeadbeef", amount := 1,
           currency := "USDC", payer_address := "0xPayer",
           timestamp := 7 } : PaymentProof).transfer_id = tComplete.id := by
  refine execute_payment_proof_invariant railOk cfg0 req0 7 [] tComplete _
    [Act.pub EventType.deposit_initiated, Act.railCreate, Act.railPoll 0,
      Act.histAppend, Act.pub EventType.deposit_completed]
    [{ requirement := req0.to_dict, transfer_id := "demo-txn-1",
       tx_hash := "0xdeadbeef", timestamp := 7 }] (by rfl)

/-! ### Fetch with payment (`X402Handler.fetch_with_payment`, `pay_and_access`) -/

/-- A response body: a JSON dictionary when `response.json()` yields a dict,
otherwise the raw text (lines 349–353). -/
inductive RespBody where
  | jsonDict (kvs : List (String × JsonVal))
  | text (s : String)
deriving DecidableEq, Repr

structure HttpResp where
  status : Nat
  headers : List (String × String)
  body : RespBody
deriving DecidableEq, Repr

/-- The resource server's behaviour for one handler call: the response to the
n-th request issued (0 = original, 1 = retried-with-proof). -/
structure ServerEnv where
  respond : Nat → HttpResp

/-- `body if isinstance(body, dict) else None` (line 363). -/
def bodyDictOf : RespBody → Option (List (String × JsonVal))
  | .jsonDict kvs => some kvs
  | .text _ => none

/-- `X402Handler.fetch_with_payment` (lines 313–394): issue the request; pass
non-402 responses through; a 402 with `auto_pay` disabled is returned as-is;
otherwise parse the requirement (failure to parse raises the protocol error),
execute the payment, and retry exactly once, returning the second response
whatever its status.  Returns the result, the action trace, and the new
payment history. -/
def fetch_with_payment (server : ServerEnv) (rail : RailEnv) (cfg : HandlerCfg)
    (auto_pay : Bool) (now : Nat) (hist : List HistoryRec) :
    Except X402Err (Nat × List (String × String) × RespBody) × List Act × List HistoryRec :=
  let r0 := server.respond 0
  if ¬ is_402_response r0.status r0.headers then
    (.ok (r0.status, r0.headers, r0.body), [Act.httpReq 0], hist)
  else if ¬ auto_pay then
    (.ok (r0.status, r0.headers, r0.body), [Act.httpReq 0], hist)
  else
    match parse_payment_requirement r0.status r0.headers (bodyDictOf r0.body) with
    | .error e => (.error (X402Err.valueError e), [Act.httpReq 0], hist)
    | .ok none =>
      (.error (X402Err.paymentError "Received 402 but could not parse payment requirements"),
        [Act.httpReq 0], hist)
    | .ok (some req) =>
      let ep := execute_payment rail cfg req now hist
      match ep.1 with
      | .error e => (.error e, Act.httpReq 0 :: ep.2.1, ep.2.2)
      | .ok _ =>
        let r1 := server.respond 1
        (.ok (r1.status, r1.headers, r1.body),
          Act.httpReq 0 :: (ep.2.1 ++ [Act.httpReq 1]), ep.2.2)

/-- `X402Handler.pay_and_access` (lines 396–423): fetch with payment; a final
402 raises `X402PaymentError("Payment was made but access still denied")`;
any other status ≥ 400 raises a request-failure error; else the body is
returned. -/
def pay_and_access (server : ServerEnv) (rail : RailEnv) (cfg : HandlerCfg)
    (auto_pay : Bool) (now : Nat) (hist : List HistoryRec) :
    Except X402Err RespBody × List Act × List HistoryRec :=
  let f := fetch_with_payment server rail cfg auto_pay now hist
  match f.1 with
  | .error e => (.error e, f.2.1, f.2.2)
  | .ok (status, _, body) =>
    if status = 402 then
      (.error (X402Err.paymentError "Payment was made but access still denied"), f.2.1, f.2.2)
    else if 400 ≤ status then
      (.error (X402Err.paymentError "Request failed"), f.2.1, f.2.2)
    else (.ok body, f.2.1, f.2.2)

/-- Is an action an HTTP request to the resource server? -/
def isHttpReq : Act → Bool
  | .httpReq _ => true
  | _ => false

theorem execute_payment_no_http (rail : RailEnv) (cfg : HandlerCfg)
    (req : PaymentRequirement) (now : Nat) (hist : List HistoryRec) :
    (execute_payment rail cfg req now hist).2.1.countP isHttpReq = 0 := by
  rw [List.countP_eq_zero]
  intro a ha
  unfold execute_payment at ha
  by_cases hg : req.amount > cfg.max_auto_payment
  · rw [if_pos hg] at ha
    simp at ha
  · rw [if_neg hg] at ha
    rcases hc : rail.createResult with e | transfer <;> rw [hc] at ha <;> simp only [] at ha
    · simp at ha
      rcases ha with rfl | rfl <;> simp [isHttpReq]
    · rcases hw : (waitLoop rail 0 cfg.maxPolls).1 with e | completed <;> rw [hw] at ha
        <;> simp only [] at ha
      · simp only [List.mem_cons] at ha
        rcases ha with rfl | rfl | ha
        · simp [isHttpReq]
        · simp [isHttpReq]
        · obtain ⟨j, rfl⟩ := waitLoop_acts rail cfg.maxPolls 0 a ha
          simp [isHttpReq]
      · simp only [List.mem_cons, List.mem_append] at ha
        rcases ha with rfl | rfl | (ha | ha)
        · simp [isHttpReq]
        · simp [isHttpReq]
        · obtain ⟨j, rfl⟩ := waitLoop_acts rail cfg.maxPolls 0 a ha
          simp [isHttpReq]
        · simp only [List.mem_cons, List.not_mem_nil, or_false] at ha
          rcases ha with rfl | rfl <;> simp [isHttpReq]

theorem waitLoop_no_http (rail : RailEnv) (fuel k : Nat) :
    (waitLoop rail k fuel).2.countP isHttpReq = 0 := by
  rw [List.countP_eq_zero]
  intro a ha
  obtain ⟨j, rfl⟩ := waitLoop_acts rail fuel k a ha
  simp [isHttpReq]

theorem waitLoop_no_create (rail : RailEnv) (fuel k : Nat) :
    Act.railCreate ∉ (waitLoop rail k fuel).2 := by
  intro hmem
  obtain ⟨j, hj⟩ := waitLoop_acts rail fuel k _ hmem
  simp at hj

theorem waitLoop_no_histAppend (rail : RailEnv) (fuel k : Nat) :
    Act.histAppend ∉ (waitLoop rail k fuel).2 := by
  intro hmem
  obtain ⟨j, hj⟩ := waitLoop_acts rail fuel k _ hmem
  simp at hj

theorem waitLoop_no_httpReq_mem (rail : RailEnv) (fuel k : Nat) (n : Nat) :
    Act.httpReq n ∉ (waitLoop rail k fuel).2 := by
  intro hmem
  obtain ⟨j, hj⟩ := waitLoop_acts rail fuel k _ hmem
  simp at hj

theorem execute_payment_success (rail : RailEnv) (cfg : HandlerCfg)
    (req : PaymentRequirement) (now : Nat) (hist : List HistoryRec)
    (transfer completed : Transfer)
    (hg : ¬ req.amount > cfg.max_auto_payment)
    (hc : rail.createResult = .ok transfer)
    (hw : (waitLoop rail 0 cfg.maxPolls).1 = .ok completed) :
    execute_payment rail cfg req now hist
      = (.ok (completed,
          { transfer_id := completed.id,
            tx_hash := pyOrStr completed.tx_hash ("0x" ++ transfer.id),
            amount := req.amount, currency := req.currency,
            payer_address := cfg.payer_address, timestamp := now }),
        Act.pub EventType.deposit_initiated :: Act.railCreate ::
          ((waitLoop rail 0 cfg.maxPolls).2
            ++ Act.histAppend :: [Act.pub EventType.deposit_completed]),
        hist ++
          [{ requirement := req.to_dict, transfer_id := transfer.id,
             tx_hash := pyOrStr completed.tx_hash ("0x" ++ transfer.id),
             timestamp := now }]) := by
  unfold execute_payment
  rw [if_neg hg, hc]
  simp only []
  rw [hw]

theorem execute_payment_wait_error (rail : RailEnv) (cfg : HandlerCfg)
    (req : PaymentRequirement) (now : Nat) (hist : List HistoryRec)
    (transfer : Transfer) (e : X402Err)
    (hg : ¬ req.amount > cfg.max_auto_payment)
    (hc : rail.createResult = .ok transfer)
    (hw : (waitLoop rail 0 cfg.maxPolls).1 = .error e) :
    execute_payment rail cfg req now hist
      = (.error e, Act.pub EventType.deposit_initiated :: Act.railCreate ::
          (waitLoop rail 0 cfg.maxPolls).2, hist) := by
  unfold execute_payment
  rw [if_neg hg, hc]
  simp only []
  rw [hw]

theorem fetch_success_shape (server : ServerEnv) (rail : RailEnv) (cfg : HandlerCfg)
    (req : PaymentRequirement) (now : Nat) (hist : List HistoryRec)
    (transfer completed : Transfer)
    (h402 : is_402_response (server.respond 0).status (server.respond 0).headers = true)
    (hp : parse_payment_requirement (server.respond 0).status (server.respond 0).headers
      (bodyDictOf (server.respond 0).body) = .ok (some req))
    (hg : ¬ req.amount > cfg.max_auto_payment)
    (hc : rail.createResult = .ok transfer)
    (hw : (waitLoop rail 0 cfg.maxPolls).1 = .ok completed) :
    fetch_with_payment server rail cfg true now hist
      = (.ok ((server.respond 1).status, (server.respond 1).headers, (server.respond 1).body),
        Act.httpReq 0 :: ((Act.pub EventType.deposit_initiated :: Act.railCreate ::
          ((waitLoop rail 0 cfg.maxPolls).2
            ++ Act.histAppend :: [Act.pub EventType.deposit_completed])) ++ [Act.httpReq 1]),
        hist ++
          [{ requirement := req.to_dict, transfer_id := transfer.id,
             tx_hash := pyOrStr completed.tx_hash ("0x" ++ transfer.id),
             timestamp := now }]) := by
  unfold fetch_with_payment
  rw [if_neg (not_not_intro h402), if_neg (by simp), hp]
  simp only []
  rw [execute_payment_success rail cfg req now hist transfer completed hg hc hw]

theorem fetch_wait_error_shape (server : ServerEnv) (rail : RailEnv) (cfg : HandlerCfg)
    (req : PaymentRequirement) (now : Nat) (hist : List HistoryRec)
    (transfer : Transfer) (e : X402Err)
    (h402 : is_402_response (server.respond 0).status (server.respond 0).headers = true)
    (hp : parse_payment_requirement (server.respond 0).status (server.respond 0).headers
      (bodyDictOf (server.respond 0).body) = .ok (some req))
    (hg : ¬ req.amount > cfg.max_auto_payment)
    (hc : rail.createResult = .ok transfer)
    (hw : (waitLoop rail 0 cfg.maxPolls).1 = .error e) :
    fetch_with_payment server rail cfg true now hist
      = (.error e, Act.httpReq 0 :: Act.pub EventType.deposit_initiated :: Act.railCreate ::
          (waitLoop rail 0 cfg.maxPolls).2, hist) := by
  unfold fetch_with_payment
  rw [if_neg (not_not_intro h402), if_neg (by simp), hp]
  simp only []
  rw [execute_payment_wait_error rail cfg req now hist transfer e hg hc hw]

/-- Is an action the rail transfer creation? -/
def isRailCreate : Act → Bool
  | .railCreate => true
  | _ => false

theorem waitLoop_no_create_countP (rail : RailEnv) (fuel k : Nat) :
    (waitLoop rail k fuel).2.countP isRailCreate = 0 := by
  rw [List.countP_eq_zero]
  intro a ha
  obtain ⟨j, rfl⟩ := waitLoop_acts rail fuel k a ha
  simp [isRailCreate]

/-- A server that answers status 402 with a header-encoded requirement to
every request (the spec's always-402 resource). -/
def server402 : ServerEnv :=
  { respond := fun _ =>
      { status := 402,
        headers := [("X-Payment-Amount", "1"), ("X-Payment-Address", "0xABCtest")],
        body := .text "" } }

/-- A server that answers status 402 on the original request but signals
payment-required on the retried request only through the
`X-Payment-Required: true` marker header, with status 200. -/
def server402Marker : ServerEnv :=
  { respond := fun n =>
      if n = 0 then
        { status := 402,
          headers := [("X-Payment-Amount", "1"), ("X-Payment-Address", "0xABCtest")],
          body := .text "" }
      else
        { status := 200, headers := [("X-Payment-Required", "true")],
          body := .text "paid content" } }

/-- C1, counterexample: a server that carries the payment-required marker on
both requests (status 402 on the first, marker header with status 200 on the
retried one) drives `pay_and_access` to a successful result, not to the
protocol-replay error — the replay check inspects the status code only, so the
claim as stated is false. -/
theorem pay_and_access_marker_counterexample :
    is_402_response (server402Marker.respond 0).status (server402Marker.respond 0).headers = true
      ∧ is_402_response (server402Marker.respond 1).status (server402Marker.respond 1).headers = true
      ∧ (pay_and_access server402Marker railOk cfg0 true 0 []).1
          = .ok (RespBody.text "paid content") := by
  exact ⟨rfl, by decide, rfl⟩

/-- C1 (amended): for every resource whose server answers status 402 (or the
payment-required marker) on the original request and status 402 on the retried
request, one call with auto-pay enabled — with a parseable requirement within
the spend ceiling and a rail that settles — performs exactly two HTTP requests,
never a third, creates exactly one rail transfer (never a second payment), and
`pay_and_access` ends in the protocol-replay error
"Payment was made but access still denied". -/
theorem fetch_exactly_one_retry (server : ServerEnv) (rail : RailEnv) (cfg : HandlerCfg)
    (req : PaymentRequirement) (now : Nat) (hist : List HistoryRec)
    (transfer completed : Transfer)
    (h402 : is_402_response (server.respond 0).status (server.respond 0).headers = true)
    (hp : parse_payment_requirement (server.respond 0).status (server.respond 0).headers
      (bodyDictOf (server.respond 0).body) = .ok (some req))
    (hg : ¬ req.amount > cfg.max_auto_payment)
    (hc : rail.createResult = .ok transfer)
    (hw : (waitLoop rail 0 cfg.maxPolls).1 = .ok completed)
    (h1 : (server.respond 1).status = 402) :
    (fetch_with_payment server rail cfg true now hist).2.1.countP isHttpReq = 2
      ∧ (fetch_with_payment server rail cfg true now hist).2.1.countP isRailCreate = 1
      ∧ (pay_and_access server rail cfg true now hist).1
          = .error (X402Err.paymentError "Payment was made but access still denied") := by
  have hf := fetch_success_shape server rail cfg req now hist transfer completed
    h402 hp hg hc hw
  refine ⟨?_, ?_, ?_⟩
  · rw [hf]
    simp [List.countP_cons, List.countP_append, isHttpReq, waitLoop_no_http]
  · rw [hf]
    simp [List.countP_cons, List.countP_append, isRailCreate, waitLoop_no_create_countP]
  · unfold pay_and_access
    rw [hf]
    simp only []
    rw [if_pos h1]

/-- Witness for C1 (amended) on the always-402 server with a settling rail. -/
theorem fetch_exactly_one_retry_witness :
    (fetch_with_payment server402 railOk cfg0 true 0 []).2.1.countP isHttpReq = 2
      ∧ (fetch_with_payment server402 railOk cfg0 true 0 []).2.1.countP isRailCreate = 1
      ∧ (pay_and_access server402 railOk cfg0 true 0 []).1
          = .error (X402Err.paymentError "Payment was made but access still denied") := by
  exact fetch_exactly_one_retry server402 railOk cfg0 req0 0 [] tPending tComplete
    rfl rfl (by norm_num [req0, cfg0]) rfl rfl rfl

/-- C6: within one `fetch_with_payment` call, (first conjunct) on the paid
success path the history record is appended strictly after the poll that
observed the transfer `complete` and strictly before the retried request is
issued — the trace splits around a unique `histAppend` whose prefix holds the
completing poll and whose suffix holds the retry — and the history grows by
exactly the confirmed record; (second conjunct) when settlement polling fails
or times out, the error is raised, no retried request is issued (exactly one
HTTP request in the trace), and the payment history is unchanged. -/
theorem fetch_append_after_settlement :
    (∀ (server : ServerEnv) (rail : RailEnv) (cfg : HandlerCfg) (req : PaymentRequirement)
        (now : Nat) (hist : List HistoryRec) (transfer completed : Transfer),
      is_402_response (server.respond 0).status (server.respond 0).headers = true →
      parse_payment_requirement (server.respond 0).status (server.respond 0).headers
        (bodyDictOf (server.respond 0).body) = .ok (some req) →
      ¬ req.amount > cfg.max_auto_payment →
      rail.createResult = .ok transfer →
      (waitLoop rail 0 cfg.maxPolls).1 = .ok completed →
      ∃ pre post,
        (fetch_with_payment server rail cfg true now hist).2.1 = pre ++ Act.histAppend :: post
          ∧ Act.histAppend ∉ pre ∧ Act.histAppend ∉ post
          ∧ (∃ j, rail.pollResult j = .ok completed
              ∧ completed.status = TransferStatus.complete ∧ Act.railPoll j ∈ pre)
          ∧ Act.httpReq 1 ∈ post ∧ Act.httpReq 1 ∉ pre
          ∧ (fetch_with_payment server rail cfg true now hist).2.2
              = hist ++ [{ requirement := req.to_dict, transfer_id := transfer.id,
                           tx_hash := pyOrStr completed.tx_hash ("0x" ++ transfer.id),
                           timestamp := now }])
    ∧ (∀ (server : ServerEnv) (rail : RailEnv) (cfg : HandlerCfg) (req : PaymentRequirement)
        (now : Nat) (hist : List HistoryRec) (transfer : Transfer) (e : X402Err),
      is_402_response (server.respond 0).status (server.respond 0).headers = true →
      parse_payment_requirement (server.respond 0).status (server.respond 0).headers
        (bodyDictOf (server.respond 0).body) = .ok (some req) →
      ¬ req.amount > cfg.max_auto_payment →
      rail.createResult = .ok transfer →
      (waitLoop rail 0 cfg.maxPolls).1 = .error e →
      (fetch_with_payment server rail cfg true now hist).1 = .error e
        ∧ (fetch_with_payment server rail cfg true now hist).2.1.countP isHttpReq = 1
        ∧ (fetch_with_payment server rail cfg true now hist).2.2 = hist) := by
  constructor
  · intro server rail cfg req now hist transfer completed h402 hp hg hc hw
    have hf := fetch_success_shape server rail cfg req now hist transfer completed
      h402 hp hg hc hw
    refine ⟨Act.httpReq 0 :: Act.pub EventType.deposit_initiated :: Act.railCreate ::
        (waitLoop rail 0 cfg.maxPolls).2,
      [Act.pub EventType.deposit_completed, Act.httpReq 1], ?_, ?_, ?_, ?_, ?_, ?_, ?_⟩
    · rw [hf]
      simp
    · simp [waitLoop_no_histAppend]
    · decide
    · obtain ⟨hst, j, hj, hmem⟩ := waitLoop_ok rail cfg.maxPolls 0 completed
        (waitLoop rail 0 cfg.maxPolls).2 (by rw [← hw])
      exact ⟨j, hj, hst, by simp [hmem]⟩
    · decide
    · simp [waitLoop_no_httpReq_mem]
    · rw [hf]
  · intro server rail cfg req now hist transfer e h402 hp hg hc hw
    have hf := fetch_wait_error_shape server rail cfg req now hist transfer e
      h402 hp hg hc hw
    refine ⟨?_, ?_, ?_⟩
    · rw [hf]
    · rw [hf]
      simp [List.countP_cons, isHttpReq, waitLoop_no_http]
    · rw [hf]

/-- Witness for C6: the success branch on a settling rail and the timeout
branch on a rail stuck in `pending`, both against the always-402 server. -/
theorem fetch_append_after_settlement_witness :
    (∃ pre post,
      (fetch_with_payment server402 railOk cfg0 true 0 []).2.1 = pre ++ Act.histAppend :: post
        ∧ Act.histAppend ∉ pre ∧ Act.histAppend ∉ post
        ∧ (∃ j, railOk.pollResult j = .ok tComplete
            ∧ tComplete.status = TransferStatus.complete ∧ Act.railPoll j ∈ pre)
        ∧ Act.httpReq 1 ∈ post ∧ Act.httpReq 1 ∉ pre
        ∧ (fetch_with_payment server402 railOk cfg0 true 0 []).2.2
            = [] ++ [{ requirement := req0.to_dict, transfer_id := tPending.id,
                       tx_hash := pyOrStr tComplete.tx_hash ("0x" ++ tPending.id),
                       timestamp := 0 }])
    ∧ ((fetch_with_payment server402 railStuck cfg0 true 0 []).1
          = .error (X402Err.timeoutError "Transfer did not complete within timeout")
        ∧ (fetch_with_payment server402 railStuck cfg0 true 0 []).2.1.countP isHttpReq = 1
        ∧ (fetch_with_payment server402 railStuck cfg0 true 0 []).2.2 = []) := by
  constructor
  · exact fetch_append_after_settlement.1 server402 railOk cfg0 req0 0 [] tPending tComplete
      rfl rfl (by norm_num [req0, cfg0]) rfl rfl
  · exact fetch_append_after_settlement.2 server402 railStuck cfg0 req0 0 [] tPending
      (X402Err.timeoutError "Transfer did not complete within timeout")
      rfl rfl (by norm_num [req0, cfg0]) rfl rfl

/-- C5, counterexample: parsing can succeed without a usable amount and
recipient.  With status 402 and the single header `X-Payment-Amount: "0"`
(a non-empty, hence truthy, amount header), parsing succeeds and returns a
requirement with amount `0` and empty recipient address — the code never
validates usability. -/
theorem parse_requirement_unusable_counterexample :
    ¬ (∀ (status : Nat) (headers : List (String × String))
        (body : Option (List (String × JsonVal))) (req : PaymentRequirement),
        parse_payment_requirement status headers body = .ok (some req) →
        0 < req.amount ∧ req.recipient_address ≠ "") := by
  intro hall
  have h := hall 402 [("X-Payment-Amount", "0")] none
    { amount := 0, currency := "USDC", recipient_address := "", network := "ARC" } rfl
  exact absurd h.1 (by norm_num)

/-- A server that answers 402 with no requirement in headers or body. -/
def server402NoReq : ServerEnv :=
  { respond := fun _ => { status := 402, headers := [], body := .text "" } }

/-- C5 (amended): parsing returns the header-encoded requirement whenever the
amount header is present and non-empty; otherwise falls back to the JSON body
whenever it is a non-empty dict whose `payment_required` entry is truthy; when
the response is not payment-required, or when neither source is available,
parsing yields none, and on a 402 with no parseable requirement the handler
surfaces the protocol error without retrying and without touching the history.
Parsing does not validate that amount and recipient are usable (see the
counterexample). -/
theorem parse_payment_requirement_amended :
    (∀ (status : Nat) (headers : List (String × String))
        (body : Option (List (String × JsonVal))),
      is_402_response status headers = false →
      parse_payment_requirement status headers body = .ok none)
    ∧ (∀ (status : Nat) (headers : List (String × String))
        (body : Option (List (String × JsonVal))),
      is_402_response status headers = true →
      truthyStr (dictGet headers "X-Payment-Amount") = true →
      parse_payment_requirement status headers body
        = (PaymentRequirement.from_headers headers).map some)
    ∧ (∀ (status : Nat) (headers : List (String × String))
        (body : Option (List (String × JsonVal))),
      is_402_response status headers = true →
      truthyStr (dictGet headers "X-Payment-Amount") = false →
      bodyFlagged body = true →
      parse_payment_requirement status headers body
        = (PaymentRequirement.from_json_body (body.getD [])).map some)
    ∧ (∀ (status : Nat) (headers : List (String × String))
        (body : Option (List (String × JsonVal))),
      is_402_response status headers = true →
      truthyStr (dictGet headers "X-Payment-Amount") = false →
      bodyFlagged body = false →
      parse_payment_requirement status headers body = .ok none)
    ∧ (∀ (server : ServerEnv) (rail : RailEnv) (cfg : HandlerCfg) (now : Nat)
        (hist : List HistoryRec),
      is_402_response (server.respond 0).status (server.respond 0).headers = true →
      parse_payment_requirement (server.respond 0).status (server.respond 0).headers
        (bodyDictOf (server.respond 0).body) = .ok none →
      (fetch_with_payment server rail cfg true now hist).1
          = .error (X402Err.paymentError "Received 402 but could not parse payment requirements")
        ∧ (fetch_with_payment server rail cfg true now hist).2.1 = [Act.httpReq 0]
        ∧ (fetch_with_payment server rail cfg true now hist).2.2 = hist) := by
  refine ⟨?_, ?_, ?_, ?_, ?_⟩
  · intro status headers body h
    unfold parse_payment_requirement
    rw [if_pos (by simp [h])]
  · intro status headers body h402 ht
    unfold parse_payment_requirement
    rw [if_neg (not_not_intro h402), if_pos ht]
  · intro status headers body h402 ht hb
    unfold parse_payment_requirement
    rw [if_neg (not_not_intro h402), if_neg (by simp [ht]), if_pos hb]
  · intro status headers body h402 ht hb
    unfold parse_payment_requirement
    rw [if_neg (not_not_intro h402), if_neg (by simp [ht]), if_neg (by simp [hb])]
  · intro server rail cfg now hist h402 hp
    unfold fetch_with_payment
    rw [if_neg (not_not_intro h402), if_neg (by simp), hp]
    exact ⟨rfl, rfl, rfl⟩

/-- Witness for C5 (amended), one concrete input per conjunct: a non-402
response; a header-encoded requirement; a body-encoded requirement; a 402 with
neither; and the handler's protocol error on a no-requirement 402. -/
theorem parse_payment_requirement_amended_witness :
    parse_payment_requirement 200 [] none = .ok none
      ∧ parse_payment_requirement 402
          [("X-Payment-Amount", "1"), ("X-Payment-Address", "0xABCtest")] none
        = (PaymentRequirement.from_headers
            [("X-Payment-Amount", "1"), ("X-Payment-Address", "0xABCtest")]).map some
      ∧ parse_payment_requirement 402 []
          (some [("payment_required", JsonVal.jbool true), ("amount", JsonVal.num 2),
            ("recipient", JsonVal.str "0xR")])
        = (PaymentRequirement.from_json_body
            [("payment_required", JsonVal.jbool true), ("amount", JsonVal.num 2),
              ("recipient", JsonVal.str "0xR")]).map some
      ∧ parse_payment_requirement 402 [] none = .ok none
      ∧ ((fetch_with_payment server402NoReq railOk cfg0 true 0 []).1
            = .error (X402Err.paymentError "Received 402 but could not parse payment requirements")
          ∧ (fetch_with_payment server402NoReq railOk cfg0 true 0 []).2.1 = [Act.httpReq 0]
          ∧ (fetch_with_payment server402NoReq railOk cfg0 true 0 []).2.2 = []) := by
  refine ⟨?_, ?_, ?_, ?_, ?_⟩
  · exact parse_payment_requirement_amended.1 200 [] none rfl
  · exact parse_payment_requirement_amended.2.1 402 _ none rfl rfl
  · exact parse_payment_requirement_amended.2.2.1 402 [] _ rfl rfl rfl
  · exact parse_payment_requirement_amended.2.2.2.1 402 [] none rfl rfl rfl
  · exact parse_payment_requirement_amended.2.2.2.2 server402NoReq railOk cfg0 0 [] rfl rfl

end USYC
